import Mathlib

/-!
# Verification of the zo-rest-service gateway core

Shallow embedding of the account-resolution, unit-conversion and
transaction-construction layer of the service (src/api.rs, src/state.rs,
src/error.rs).

Modelling conventions:
* `f64` values are modelled as exact rationals (`ℚ`); the floating-point
  operations used by the code (`rem_euclid`, multiplication by powers of ten,
  division) are modelled by the corresponding exact rational operations.
* Machine-integer overflow is modelled explicitly: the `as u64` cast from a
  float saturates to `[0, 2^64 - 1]` truncating toward zero, and `u64`
  multiplication/addition wrap modulo `2^64`.
* Fixed-size on-chain arrays are modelled as lists; `I80F48` fixed-point
  values are modelled as exact rationals; public keys are modelled as natural
  numbers with `0` for the all-zero default key.
* The `Symbol` type of the on-chain ABI crate is external to this repository;
  it is modelled from the spec as a string whose nil sentinel is the empty
  string ("entries are valid up to the first nil symbol").
-/

namespace Zo

/-- The modulus of `u64` arithmetic. -/
def u64Mod : ℕ := 2 ^ 64

/-- Rust's saturating cast `x as u64` applied to an `f64` (modelled as `ℚ`):
truncation toward zero, clamped to `[0, 2^64 - 1]`. -/
def f64AsU64 (x : ℚ) : ℕ :=
  if x < 0 then 0
  else if (u64Mod : ℚ) ≤ x then u64Mod - 1
  else ⌊x⌋.toNat

/-- `n.rem_euclid(1.)` on `f64`, modelled exactly: the fractional part. -/
def remEuclidOne (x : ℚ) : ℚ := Int.fract x

/-- `big_to_small` from src/api.rs:
`let (a, b) = (n as u64, n.rem_euclid(1.));`
`(a * 10u64.pow(decimals)) + (b * 10f64.powi(decimals as i32)) as u64`.
`10u64.pow`, the `u64` multiplication and the `u64` addition wrap modulo
`2^64`; both casts saturate. -/
def big_to_small (n : ℚ) (decimals : ℕ) : ℕ :=
  (f64AsU64 n * (10 ^ decimals % u64Mod) % u64Mod
    + f64AsU64 (remEuclidOne n * 10 ^ decimals)) % u64Mod

/-- `div_to_float` from src/api.rs: `i128` truncating division and remainder
by `10^p`, recombined as a float (float arithmetic modelled exactly). -/
def div_to_float (n : ℤ) (p : ℕ) : ℚ :=
  (Int.tdiv n (10 ^ p) : ℚ) + (Int.tmod n (10 ^ p) : ℚ) / ((10 : ℚ) ^ p)

/-- `small_to_big` from src/api.rs: `I80F48` division by `10^decimals`,
converted to a float (fixed-point and float arithmetic modelled exactly). -/
def small_to_big (n : ℚ) (decimals : ℕ) : ℚ := n / 10 ^ decimals

/-- Modelled from the spec: the zo-abi `Symbol` (missing from src/) is a
fixed-width symbol rendered to a `String`; the nil sentinel renders to the
empty string. -/
structure Symbol where
  str : String
deriving DecidableEq

/-- `Symbol::is_nil`, modelled from the spec's nil sentinel. -/
def Symbol.is_nil (s : Symbol) : Bool := s.str = ""

/-- The fields of zo-abi `PerpMarketInfo` used by the service. -/
structure PerpMarketInfo where
  symbol : Symbol
  asset_decimals : ℕ
deriving DecidableEq

/-- The fields of zo-abi `CollateralInfo` used by the service. -/
structure CollateralInfo where
  oracle_symbol : Symbol
  decimals : ℕ
deriving DecidableEq

/-- The fields of the zo-abi global `State` account used for symbol
resolution (fixed-size arrays modelled as lists). -/
structure ZoState where
  perp_markets : List PerpMarketInfo
  collaterals : List CollateralInfo

/-- src/error.rs `Error` (payload-free model of the wrapped foreign errors). -/
inductive Error where
  | MarketSymbolNotFound (s : String)
  | CollateralSymbolNotFound (s : String)
  | OpenOrdersNotFound (s : String)
  | ParseInt
  | ParsePubkey
deriving DecidableEq

/-- `State::market_symbol_index` from src/state.rs: position of the first
entry of the full `perp_markets` array whose symbol string equals `s`. -/
def market_symbol_index (st : ZoState) (s : String) : Except Error ℕ :=
  match st.perp_markets.findIdx? (fun m => m.symbol.str == s) with
  | some i => .ok i
  | none => .error (.MarketSymbolNotFound s)

/-- `State::collateral_symbol_index` from src/state.rs. -/
def collateral_symbol_index (st : ZoState) (s : String) : Except Error ℕ :=
  match st.collaterals.findIdx? (fun c => c.oracle_symbol.str == s) with
  | some i => .ok i
  | none => .error (.CollateralSymbolNotFound s)

/-- `State::market` from src/state.rs: index the markets array at the
resolved position. -/
def market (st : ZoState) (s : String) : Except Error PerpMarketInfo :=
  match market_symbol_index st s with
  | .ok i => .ok (st.perp_markets.getD i ⟨⟨""⟩, 0⟩)
  | .error e => .error e

/-- `State::zo_markets` from src/state.rs: the active prefix of the markets
array, up to the first nil symbol. -/
def zo_markets (st : ZoState) : List PerpMarketInfo :=
  st.perp_markets.takeWhile (fun m => !m.symbol.is_nil)

/-- `State::zo_collaterals` from src/state.rs. -/
def zo_collaterals (st : ZoState) : List CollateralInfo :=
  st.collaterals.takeWhile (fun c => !c.oracle_symbol.is_nil)

/-- The fields of a zo-abi `OpenOrdersInfo` position slot used by the
service; `key = 0` models `Pubkey::default()`. -/
structure OpenOrdersInfo where
  key : ℕ
  pos_size : ℤ
  native_pc_total : ℤ
  realized_pnl : ℤ
  funding_index : ℤ
deriving DecidableEq

/-- The field of the zo-abi `Control` account used by the service. -/
structure Control where
  open_orders_agg : List OpenOrdersInfo

/-- `State::oo` from src/state.rs: scan the position slots zipped with the
active markets; on the matching symbol return the stored key unless it is the
default key; otherwise fall through to `OpenOrdersNotFound`. -/
def oo (st : ZoState) (c : Control) (s : String) : Except Error ℕ :=
  match (c.open_orders_agg.zip (zo_markets st)).findSome?
      (fun p : OpenOrdersInfo × PerpMarketInfo => if s == p.2.symbol.str
        then (if p.1.key = 0 then none else some p.1.key)
        else none) with
  | some k => .ok k
  | none => .error (.OpenOrdersNotFound s)

/-- The symbol-resolution prefix of the `orders_post` / `orders_delete`
handlers: `st.dex_market(&s)` resolves the market (src/state.rs
`dex_market` via `market`) before `st.oo(&s)` runs (src/api.rs). -/
def handler_market_then_oo (st : ZoState) (c : Control) (s : String) :
    Except Error ℕ := do
  let _ ← market st s
  oo st c s

/-- `PositionInfo` response record from src/api.rs. -/
structure PositionInfo where
  size : ℚ
  value : ℚ
  realized_pnl : ℚ
  funding_index : ℚ
  is_long : Bool
deriving DecidableEq

/-- The `position` handler from src/api.rs: active markets zipped with the
control account's position slots; the default key yields the fixed
uninitialized view, otherwise the decoded view. -/
def position (st : ZoState) (c : Control) : List (String × PositionInfo) :=
  ((zo_markets st).zip c.open_orders_agg).map fun p : PerpMarketInfo × OpenOrdersInfo =>
    (p.1.symbol.str,
      if p.2.key = 0 then
        { size := 0, value := 0, realized_pnl := 0, funding_index := 1,
          is_long := true }
      else
        { size := |div_to_float p.2.pos_size p.1.asset_decimals|
          value := |div_to_float p.2.native_pc_total 6|
          realized_pnl := div_to_float p.2.realized_pnl p.1.asset_decimals
          funding_index := div_to_float p.2.funding_index 6
          is_long := decide (0 ≤ p.2.pos_size) })

/-- One entry of the zo-abi `Cache.borrow_cache` array (`I80F48` multipliers
modelled as exact rationals). -/
structure BorrowCacheItem where
  supply_multiplier : ℚ
  borrow_multiplier : ℚ

/-- The field of the zo-abi `Cache` account used by the service. -/
structure Cache where
  borrow_cache : List BorrowCacheItem

/-- The fields of the zo-abi `Margin` account used by the service. -/
structure Margin where
  collateral : List ℚ
  control : ℕ

/-- The `collateral_balances` handler from src/api.rs: for each active
collateral at index `i`, multiply the raw balance `margin.collateral[i]` by
the supply multiplier when it is `>= 0` and by the borrow multiplier
otherwise, then scale down by the collateral's decimals. The Rust indexing
`margin.collateral[i]` / `cache.borrow_cache[i]` is modelled with `getD`
under the spec's index-alignment invariant. -/
def collateral_balances (st : ZoState) (cache : Cache) (margin : Margin) :
    List (String × ℚ) :=
  (zo_collaterals st).enum.map fun p : Nat × CollateralInfo =>
    (p.2.oracle_symbol.str,
      small_to_big
        (margin.collateral.getD p.1 0 *
          (if 0 ≤ margin.collateral.getD p.1 0
            then (cache.borrow_cache.getD p.1 ⟨0, 0⟩).supply_multiplier
            else (cache.borrow_cache.getD p.1 ⟨0, 0⟩).borrow_multiplier))
        p.2.decimals)

/-- `Side` from src/api.rs. -/
inductive Side where
  | Bid
  | Ask
deriving DecidableEq

/-- `OrderType` from src/api.rs. -/
inductive OrderType where
  | Limit
  | ImmediateOrCancel
  | PostOnly
  | ReduceOnlyIoc
  | ReduceOnlyLimit
  | FillOrKill
deriving DecidableEq

/-- The fields of a zo-abi `ZoDexMarket` used by `orders_post`; the lot
conversions `price_to_lots` / `size_to_lots` live in the external ABI crate
and are modelled as abstract functions into `u64` values. -/
structure ZoDexMarket where
  price_to_lots : ℚ → ℕ
  size_to_lots : ℚ → ℕ
  pc_lot_size : ℕ

/-- `OrdersPostQuery` from src/api.rs. -/
structure OrdersPostQuery where
  size : ℚ
  price : ℚ
  side : Side
  order_type : OrderType
  client_id : Option ℕ
  limit : Option ℕ

/-- The argument record of the `PlacePerpOrder` instruction built by
`orders_post` in src/api.rs. -/
structure PlacePerpOrderArgs where
  is_long : Bool
  limit_price : ℕ
  max_base_quantity : ℕ
  max_quote_quantity : ℕ
  order_type : OrderType
  limit : ℕ
  client_id : ℕ
deriving DecidableEq

/-- The instruction-building core of `orders_post` from src/api.rs:
`max_quote_quantity = limit_price * max_base_quantity * mkt.pc_lot_size`
as wrapping `u64` multiplications; the handler has no overflow error path. -/
def orders_post_args (mkt : ZoDexMarket) (q : OrdersPostQuery) :
    PlacePerpOrderArgs :=
  let limit_price := mkt.price_to_lots q.price
  let max_base_quantity := mkt.size_to_lots q.size
  { is_long := decide (q.side = Side.Bid)
    limit_price := limit_price
    max_base_quantity := max_base_quantity
    max_quote_quantity :=
      limit_price * max_base_quantity % u64Mod * mkt.pc_lot_size % u64Mod
    order_type := q.order_type
    limit := q.limit.getD 20
    client_id := q.client_id.getD 0 }

/-- `OrdersDeleteQuery` from src/api.rs. -/
structure OrdersDeleteQuery where
  order_id : Option String
  side : Option Side
  client_id : Option ℕ

/-- The argument record of the `CancelPerpOrder` instruction built by
`orders_delete` in src/api.rs. -/
structure CancelPerpOrderArgs where
  order_id : Option ℕ
  is_long : Option Bool
  client_id : Option ℕ
deriving DecidableEq

/-- `u128::from_str_radix(s, 10)`: an optional leading `+`, then at least
one decimal digit, with the value required to fit in `u128`. -/
def parseU128 (s : String) : Option ℕ :=
  let cs := match s.data with
    | '+' :: rest => rest
    | cs => cs
  if cs.isEmpty then none
  else if cs.all Char.isDigit then
    let v := cs.foldl (fun a c => a * 10 + (c.toNat - 48)) 0
    if v < 2 ^ 128 then some v else none
  else none

/-- The instruction-building core of `orders_delete` from src/api.rs: parse
the optional order id, then pass each optional filter through unchanged
(`is_long: q.side.map(|s| s == Side::Bid)`). -/
def orders_delete_args (q : OrdersDeleteQuery) :
    Except Error CancelPerpOrderArgs :=
  match q.order_id with
  | some s =>
    match parseU128 s with
    | some v =>
      .ok { order_id := some v
            is_long := q.side.map (fun x => decide (x = Side.Bid))
            client_id := q.client_id }
    | none => .error .ParseInt
  | none =>
    .ok { order_id := none
          is_long := q.side.map (fun x => decide (x = Side.Bid))
          client_id := q.client_id }

/-! ## Concrete fixtures used by the witnesses and counterexamples -/

/-- Market whose external lot conversions yield `price_lots = 2^32` and
`base_lots = 2^32`, with `quote_lot_size = 1`. -/
def c2Market : ZoDexMarket :=
  { price_to_lots := fun _ => 2 ^ 32
    size_to_lots := fun _ => 2 ^ 32
    pc_lot_size := 1 }

/-- A place-order request routed to `c2Market`. -/
def c2Query : OrdersPostQuery :=
  { size := 1, price := 1, side := Side.Bid, order_type := OrderType.Limit
    client_id := none, limit := none }

/-- Global state whose market and collateral lists contain a live entry, the
nil sentinel, and a spurious non-nil entry after the sentinel. -/
def c3State : ZoState :=
  { perp_markets := [⟨⟨"A"⟩, 6⟩, ⟨⟨""⟩, 0⟩, ⟨⟨"B"⟩, 6⟩]
    collaterals := [⟨⟨"U"⟩, 6⟩, ⟨⟨""⟩, 0⟩, ⟨⟨"V"⟩, 6⟩] }

/-- Global state with a single active market `"A"`. -/
def c5State : ZoState := ⟨[⟨⟨"A"⟩, 6⟩], []⟩

/-- Control account whose only slot has the zero key but junk in every other
field. -/
def c5Control : Control := ⟨[⟨0, 5, 7, 9, 11⟩]⟩

/-- Global state with a single active collateral `"USDC"` (6 decimals). -/
def c6State : ZoState := ⟨[], [⟨⟨"USDC"⟩, 6⟩]⟩

/-- Cache with supply multiplier 1 and borrow multiplier 2 for slot 0. -/
def c6Cache : Cache := ⟨[⟨1, 2⟩]⟩

/-- Margin account with raw balance 1,000,000 in slot 0. -/
def c6Margin : Margin := ⟨[1000000], 0⟩

/-- Global state with a single active market `"A"`. -/
def c8State : ZoState := ⟨[⟨⟨"A"⟩, 6⟩], []⟩

/-- Control account whose only slot has the zero key. -/
def c8Control : Control := ⟨[⟨0, 0, 0, 0, 0⟩]⟩

/-- Global state with a single active market `"M"` (1 asset decimal). -/
def c10State : ZoState := ⟨[⟨⟨"M"⟩, 1⟩], []⟩

/-- Control account whose only slot is live (nonzero key) and short. -/
def c10Control : Control := ⟨[⟨7, -3, -2000000, -5, 3000000⟩]⟩


/-! ## Helper lemmas -/

theorem div_to_float_eq (n : ℤ) (p : ℕ) : div_to_float n p = (n : ℚ) / 10 ^ p := by
  have hP : ((10 : ℚ) ^ p) ≠ 0 := by positivity
  have hq : ((10 : ℚ) ^ p) * (Int.tdiv n (10 ^ p) : ℚ) + (Int.tmod n (10 ^ p) : ℚ)
      = (n : ℚ) := by
    exact_mod_cast congrArg (fun z : ℤ => (z : ℚ)) (Int.tdiv_add_tmod n (10 ^ p))
  rw [div_to_float, eq_div_iff hP, add_mul, div_mul_cancel₀ _ hP, mul_comm]
  exact hq

theorem f64AsU64_of_lt (x : ℚ) (h0 : 0 ≤ x) (h1 : x < 2 ^ 64) :
    f64AsU64 x = ⌊x⌋.toNat := by
  rw [f64AsU64, if_neg (not_lt.mpr h0), if_neg]
  rw [not_le]
  show (((2 : ℕ) ^ 64 : ℕ) : ℚ) > x
  push_cast
  exact h1

theorem floor_toNat_lt_of_lt (x : ℚ) (h1 : x < 2 ^ 64) :
    ⌊x⌋.toNat < 2 ^ 64 := by
  have : ⌊x⌋ < (2 : ℤ) ^ 64 := by
    apply Int.floor_lt.mpr
    push_cast
    exact h1
  omega

theorem lt_of_floor_toNat_lt (x : ℚ) (h : ⌊x⌋.toNat < 2 ^ 64) :
    x < 2 ^ 64 := by
  by_contra hc
  push_neg at hc
  have h2 : ((2 : ℤ) ^ 64 : ℤ) ≤ ⌊x⌋ := Int.le_floor.mpr (by push_cast; exact hc)
  omega

theorem wrap_eval (A B d : ℕ) (h : A * 10 ^ d + B < u64Mod) :
    (A * (10 ^ d % u64Mod) % u64Mod + B) % u64Mod = A * 10 ^ d + B := by
  have hA : A % u64Mod = A := by
    apply Nat.mod_eq_of_lt
    calc A ≤ A * 10 ^ d := Nat.le_mul_of_pos_right A (by positivity)
    _ < u64Mod := lt_of_le_of_lt (Nat.le_add_right _ B) h
  have hAd : A * 10 ^ d % u64Mod = A * 10 ^ d :=
    Nat.mod_eq_of_lt (lt_of_le_of_lt (Nat.le_add_right _ B) h)
  calc (A * (10 ^ d % u64Mod) % u64Mod + B) % u64Mod
      = (A % u64Mod * (10 ^ d % u64Mod) % u64Mod + B) % u64Mod := by rw [hA]
    _ = (A * 10 ^ d % u64Mod + B) % u64Mod := by rw [← Nat.mul_mod]
    _ = (A * 10 ^ d + B) % u64Mod := by rw [hAd]
    _ = A * 10 ^ d + B := Nat.mod_eq_of_lt h

theorem big_to_small_pow64 : big_to_small ((2 : ℚ) ^ 64) 0 = 2 ^ 64 - 1 := by
  have hle : ((u64Mod : ℕ) : ℚ) ≤ (2 : ℚ) ^ 64 := by
    rw [u64Mod]; push_cast; norm_num
  have h1 : f64AsU64 ((2 : ℚ) ^ 64) = 2 ^ 64 - 1 := by
    rw [f64AsU64, if_neg (by norm_num), if_pos hle, u64Mod]
  have h2 : remEuclidOne ((2 : ℚ) ^ 64) = 0 := by
    have hc : ((2 : ℚ) ^ 64) = (((2 ^ 64 : ℤ) : ℚ)) := by push_cast; ring
    rw [remEuclidOne, hc, Int.fract_intCast]
  rw [big_to_small, h1, h2]
  norm_num [f64AsU64, u64Mod]

/-! ## Claims -/

/-- C1 (counterexample): at the finite non-negative amount `a = 2^64` with
`d = 0`, the saturating `as u64` cast makes `big_to_small` return `2^64 - 1`,
not the claimed `⌊a⌋ * 10^0 + ⌊(a mod 1) * 10^0⌋ = 2^64`. -/
theorem c1_counterexample :
    big_to_small ((2 : ℚ) ^ 64) 0
      ≠ ⌊(2 : ℚ) ^ 64⌋.toNat * 10 ^ 0 + ⌊Int.fract ((2 : ℚ) ^ 64) * 10 ^ 0⌋.toNat := by
  have hc : ((2 : ℚ) ^ 64) = (((2 ^ 64 : ℤ) : ℚ)) := by push_cast; ring
  rw [big_to_small_pow64, hc, Int.fract_intCast, Int.floor_intCast]
  norm_num
  decide

/-- C1 (amended): for every finite non-negative amount `a < 2^64` and decimal
count `d` such that `⌊a⌋ * 10^d + ⌊(a mod 1) * 10^d⌋` fits in a `u64`, the
float-to-ledger-integer conversion `big_to_small a d` equals exactly that
sum: truncation toward zero, not rounding, so the submitted ledger integer
never exceeds the authorized amount. -/
theorem c1_big_to_small_truncates (a : ℚ) (d : ℕ) (h0 : 0 ≤ a)
    (h1 : a < 2 ^ 64)
    (h2 : ⌊a⌋.toNat * 10 ^ d + ⌊Int.fract a * 10 ^ d⌋.toNat < 2 ^ 64) :
    big_to_small a d = ⌊a⌋.toNat * 10 ^ d + ⌊Int.fract a * 10 ^ d⌋.toNat := by
  have hfr0 : (0 : ℚ) ≤ Int.fract a * 10 ^ d :=
    mul_nonneg (Int.fract_nonneg a) (by positivity)
  have hBlt : Int.fract a * 10 ^ d < 2 ^ 64 :=
    lt_of_floor_toNat_lt _ (by omega)
  rw [big_to_small, remEuclidOne, f64AsU64_of_lt a h0 h1,
    f64AsU64_of_lt _ hfr0 hBlt]
  exact wrap_eval _ _ _ (by rw [u64Mod]; exact h2)

/-- C1 witness: `big_to_small (3/2) 1 = ⌊3/2⌋ * 10 + ⌊(1/2) * 10⌋ = 15`. -/
theorem c1_witness :
    big_to_small ((3 : ℚ) / 2) 1
      = ⌊(3 : ℚ) / 2⌋.toNat * 10 ^ 1 + ⌊Int.fract ((3 : ℚ) / 2) * 10 ^ 1⌋.toNat :=
  c1_big_to_small_truncates ((3 : ℚ) / 2) 1 (by norm_num) (by norm_num)
    (by norm_num [Int.fract]; decide)


/-- C4 (counterexample): at the non-negative ledger integer `n = 2^64` with
`p = 0`, `div_to_float` yields the float value `2^64`, whose conversion back
saturates to `2^64 - 1`, so the round trip is not the identity. -/
theorem c4_counterexample :
    big_to_small (div_to_float (2 ^ 64) 0) 0 ≠ 2 ^ 64 := by
  have h : div_to_float (2 ^ 64) 0 = ((2 : ℚ) ^ 64) := by
    rw [div_to_float_eq]
    push_cast
    norm_num
  rw [h, big_to_small_pow64]
  norm_num

/-- C4 (amended): the round trip `big_to_small (div_to_float n p) p = n`
holds for every non-negative ledger integer that fits in a `u64`
(`0 ≤ n < 2^64`) and every digit count `p`. -/
theorem c4_roundtrip (n : ℤ) (p : ℕ) (h0 : 0 ≤ n) (h1 : n < 2 ^ 64) :
    big_to_small (div_to_float n p) p = n.toNat := by
  have hP : (0 : ℤ) < 10 ^ p := by positivity
  have hPq : (0 : ℚ) < 10 ^ p := by positivity
  have hq0 : 0 ≤ Int.tdiv n (10 ^ p) := Int.tdiv_nonneg h0 (le_of_lt hP)
  have hr0 : 0 ≤ Int.tmod n (10 ^ p) := Int.tmod_nonneg _ h0
  have hrP : Int.tmod n (10 ^ p) < 10 ^ p := Int.tmod_lt_of_pos n hP
  have hn : 10 ^ p * Int.tdiv n (10 ^ p) + Int.tmod n (10 ^ p) = n :=
    Int.tdiv_add_tmod n (10 ^ p)
  have hx : div_to_float n p
      = (Int.tdiv n (10 ^ p) : ℚ) + (Int.tmod n (10 ^ p) : ℚ) / (10 : ℚ) ^ p := rfl
  have hfr0 : (0 : ℚ) ≤ (Int.tmod n (10 ^ p) : ℚ) / 10 ^ p :=
    div_nonneg (by exact_mod_cast hr0) (le_of_lt hPq)
  have hfr1 : (Int.tmod n (10 ^ p) : ℚ) / 10 ^ p < 1 :=
    (div_lt_one hPq).mpr (by exact_mod_cast hrP)
  have hfloor : ⌊div_to_float n p⌋ = Int.tdiv n (10 ^ p) := by
    rw [hx, Int.floor_int_add, Int.floor_eq_zero_iff.mpr (Set.mem_Ico.mpr ⟨hfr0, hfr1⟩)]
    ring
  have hfract : Int.fract (div_to_float n p) = (Int.tmod n (10 ^ p) : ℚ) / 10 ^ p := by
    rw [hx, Int.fract_int_add, Int.fract_eq_self.mpr ⟨hfr0, hfr1⟩]
  have hone : (1 : ℚ) ≤ 10 ^ p := by
    simpa using pow_le_pow_right₀ (by norm_num : (1 : ℚ) ≤ 10) (Nat.zero_le p)
  have hx0 : 0 ≤ div_to_float n p := by
    rw [div_to_float_eq]
    exact div_nonneg (by exact_mod_cast h0) (le_of_lt hPq)
  have hxlt : div_to_float n p < 2 ^ 64 := by
    rw [div_to_float_eq]
    calc (n : ℚ) / 10 ^ p ≤ (n : ℚ) := div_le_self (by exact_mod_cast h0) hone
    _ < 2 ^ 64 := by exact_mod_cast h1
  have hrle : Int.tmod n (10 ^ p) ≤ n := by
    have hprod : 0 ≤ 10 ^ p * Int.tdiv n (10 ^ p) :=
      mul_nonneg (le_of_lt hP) hq0
    linarith [hn]
  have hr64 : (Int.tmod n (10 ^ p) : ℚ) < 2 ^ 64 := by
    exact_mod_cast lt_of_le_of_lt hrle h1
  rw [big_to_small, remEuclidOne, f64AsU64_of_lt _ hx0 hxlt, hfloor, hfract,
    div_mul_cancel₀ _ (ne_of_gt hPq), f64AsU64_of_lt _ (by exact_mod_cast hr0) hr64,
    Int.floor_intCast]
  have hNat : (Int.tdiv n (10 ^ p)).toNat * 10 ^ p + (Int.tmod n (10 ^ p)).toNat
      = n.toNat := by
    have hcast : (((Int.tdiv n (10 ^ p)).toNat * 10 ^ p
        + (Int.tmod n (10 ^ p)).toNat : ℕ) : ℤ) = ((n.toNat : ℕ) : ℤ) := by
      push_cast [Int.toNat_of_nonneg hq0, Int.toNat_of_nonneg hr0,
        Int.toNat_of_nonneg h0]
      linarith [hn]
    exact_mod_cast hcast
  have hlt : (Int.tdiv n (10 ^ p)).toNat * 10 ^ p + (Int.tmod n (10 ^ p)).toNat
      < 2 ^ 64 := by
    rw [hNat]
    omega
  rw [wrap_eval _ _ _ (by rw [u64Mod]; exact hlt), hNat]

/-- C4 witness: the round trip is the identity at `n = 12345`, `p = 2`. -/
theorem c4_witness : big_to_small (div_to_float 12345 2) 2 = 12345 :=
  (c4_roundtrip 12345 2 (by norm_num) (by norm_num)).trans (by decide)

/-- C9 (counterexample): at the non-integral negative amount `a = -1/2` with
`d = 0`, `big_to_small` returns `0`, not a positive ledger quantity. -/
theorem c9_counterexample :
    (-(1 : ℚ) / 2 < 0) ∧ Int.fract (-(1 : ℚ) / 2) ≠ 0 ∧
      big_to_small (-(1 : ℚ) / 2) 0 = 0 := by
  refine ⟨by norm_num, ?_, ?_⟩
  · rw [Int.fract]
    norm_num
  · rw [big_to_small, remEuclidOne, f64AsU64, if_pos (by norm_num : -(1 : ℚ) / 2 < 0)]
    rw [Int.fract]
    norm_num [f64AsU64, u64Mod]

/-- C9 (amended): for every negative amount `a` and decimal count `d ≤ 19`,
the integer part saturates to `0` under the float-to-u64 cast while the
fractional part is the non-negative Euclidean remainder `a mod 1`, so
`big_to_small a d = ⌊(a mod 1) * 10^d⌋` — positive exactly when
`(a mod 1) * 10^d` reaches `1`, and `0` otherwise — rather than an error. -/
theorem c9_negative_amounts (a : ℚ) (d : ℕ) (ha : a < 0) (hd : d ≤ 19) :
    big_to_small a d = ⌊Int.fract a * 10 ^ d⌋.toNat ∧
      (0 < big_to_small a d ↔ 1 ≤ Int.fract a * 10 ^ d) := by
  have hfr0 : (0 : ℚ) ≤ Int.fract a * 10 ^ d :=
    mul_nonneg (Int.fract_nonneg a) (by positivity)
  have hlt : Int.fract a * 10 ^ d < 2 ^ 64 := by
    have h1 : Int.fract a * 10 ^ d < 10 ^ d :=
      mul_lt_of_lt_one_left (by positivity) (Int.fract_lt_one a)
    have h2 : (10 : ℚ) ^ d ≤ 10 ^ 19 :=
      pow_le_pow_right₀ (by norm_num) hd
    calc Int.fract a * 10 ^ d < 10 ^ d := h1
    _ ≤ 10 ^ 19 := h2
    _ < 2 ^ 64 := by norm_num
  have hB : ⌊Int.fract a * 10 ^ d⌋.toNat < u64Mod := by
    rw [u64Mod]
    exact floor_toNat_lt_of_lt _ hlt
  have hmain : big_to_small a d = ⌊Int.fract a * 10 ^ d⌋.toNat := by
    rw [big_to_small, remEuclidOne, f64AsU64, if_pos ha,
      f64AsU64_of_lt _ hfr0 hlt]
    simp [Nat.mod_eq_of_lt hB]
  refine ⟨hmain, ?_⟩
  rw [hmain]
  constructor
  · intro h
    have h1 : (1 : ℤ) ≤ ⌊Int.fract a * 10 ^ d⌋ := by omega
    exact_mod_cast Int.le_floor.mp h1
  · intro h
    have h1 : (1 : ℤ) ≤ ⌊Int.fract a * 10 ^ d⌋ :=
      Int.le_floor.mpr (by exact_mod_cast h)
    omega

/-- C9 witness: `big_to_small (-1/4) 1 = ⌊(3/4) * 10⌋ = 7`. -/
theorem c9_witness : big_to_small (-(1 : ℚ) / 4) 1 = 7 := by
  have h := (c9_negative_amounts (-(1 : ℚ) / 4) 1 (by norm_num) (by norm_num)).1
  rw [h, Int.fract]
  norm_num
  decide

/-- A match on a `findIdx?` result equals the error branch exactly when the
scan found nothing. -/
theorem match_findIdx_error {α : Type} (l : List α) (p : α → Bool) (e : Error) :
    ((match l.findIdx? p with
      | some i => (Except.ok i : Except Error ℕ)
      | none => .error e) = .error e) ↔ l.findIdx? p = none := by
  cases h : l.findIdx? p with
  | some i => simp
  | none => simp

/-- C2: the place-order builder performs the quote-quantity product with
wrapping `u64` arithmetic and has no rejection path: at lots
`2^32 * 2^32 * 1 = 2^64`, which exceeds the `u64` range, the instruction is
still built, with the silently wrapped quote quantity `0`. -/
theorem c2_quote_qty_wraps :
    (orders_post_args c2Market c2Query).max_quote_quantity = 0 ∧
      u64Mod - 1 <
        c2Market.price_to_lots c2Query.price * c2Market.size_to_lots c2Query.size
          * c2Market.pc_lot_size := by
  constructor
  · decide
  · decide

/-- C3 (counterexample): the symbol `"B"` occurs only at index 2, after the
nil sentinel at index 1, so it is not in the active prefix; yet
`market_symbol_index` matches it instead of returning not-found — likewise
`"V"` for `collateral_symbol_index`. -/
theorem c3_counterexample :
    (zo_markets c3State).all (fun m => !(m.symbol.str == "B")) = true ∧
      market_symbol_index c3State "B" = .ok 2 ∧
      (zo_collaterals c3State).all (fun c => !(c.oracle_symbol.str == "V")) = true ∧
      collateral_symbol_index c3State "V" = .ok 2 :=
  ⟨rfl, rfl, rfl, rfl⟩

/-- C3 (amended): `market_symbol_index` and `collateral_symbol_index` scan
the entire fixed-size list, not only the sentinel-bounded active prefix:
they return the respective not-found error exactly for the symbols occurring
nowhere in the full list, so entries at or after the first nil symbol can be
matched. -/
theorem c3_full_list_scan (st : ZoState) (s : String) :
    (market_symbol_index st s = .error (.MarketSymbolNotFound s) ↔
      ∀ m ∈ st.perp_markets, m.symbol.str ≠ s) ∧
    (collateral_symbol_index st s = .error (.CollateralSymbolNotFound s) ↔
      ∀ c ∈ st.collaterals, c.oracle_symbol.str ≠ s) := by
  constructor
  · rw [market_symbol_index, match_findIdx_error, List.findIdx?_eq_none_iff]
    simp
  · rw [collateral_symbol_index, match_findIdx_error, List.findIdx?_eq_none_iff]
    simp

/-- C3 witness: a symbol occurring nowhere in either list resolves to the
respective not-found error. -/
theorem c3_witness :
    market_symbol_index c3State "X" = .error (.MarketSymbolNotFound "X") ∧
      collateral_symbol_index c3State "X" = .error (.CollateralSymbolNotFound "X") :=
  ⟨(c3_full_list_scan c3State "X").1.mpr (by decide),
   (c3_full_list_scan c3State "X").2.mpr (by decide)⟩

/-- C5: a position slot storing the all-zero address yields the fixed
uninitialized view `size=0, value=0, realizedPnl=0, fundingIndex=1,
isLong=true` in the `/position` response, regardless of the slot's other
field contents. -/
theorem c5_zero_key_gives_uninitialized_view (st : ZoState) (c : Control)
    (m : PerpMarketInfo) (o : OpenOrdersInfo)
    (hmem : (m, o) ∈ (zo_markets st).zip c.open_orders_agg) (hkey : o.key = 0) :
    (m.symbol.str, PositionInfo.mk 0 0 0 1 true) ∈ position st c := by
  rw [position]
  exact List.mem_map.mpr ⟨(m, o), hmem, by simp [hkey]⟩

/-- C5 witness: the single zero-key slot of `c5Control` — with junk in every
other field — reports the uninitialized view. -/
theorem c5_witness :
    ("A", PositionInfo.mk 0 0 0 1 true) ∈ position c5State c5Control :=
  c5_zero_key_gives_uninitialized_view c5State c5Control ⟨⟨"A"⟩, 6⟩ ⟨0, 5, 7, 9, 11⟩
    (by decide) rfl

/-- C10: a live (nonzero-key) slot reports `size = |pos_size| / 10^decimals`
and `value = |native_pc_total| / 10^6` as absolute values, `realizedPnl`
with its sign preserved, and the direction only through
`isLong = (pos_size ≥ 0)`; a short position has positive size with
`isLong = false` and a zero-size live position has `isLong = true`. -/
theorem c10_live_position_view (st : ZoState) (c : Control)
    (m : PerpMarketInfo) (o : OpenOrdersInfo)
    (hmem : (m, o) ∈ (zo_markets st).zip c.open_orders_agg) (hkey : o.key ≠ 0) :
    (m.symbol.str,
      PositionInfo.mk (|(o.pos_size : ℚ)| / 10 ^ m.asset_decimals)
        (|(o.native_pc_total : ℚ)| / 10 ^ 6)
        ((o.realized_pnl : ℚ) / 10 ^ m.asset_decimals)
        ((o.funding_index : ℚ) / 10 ^ 6)
        (decide (0 ≤ o.pos_size))) ∈ position st c ∧
      (o.pos_size < 0 → decide (0 ≤ o.pos_size) = false ∧
        0 < |(o.pos_size : ℚ)| / 10 ^ m.asset_decimals) ∧
      (o.pos_size = 0 → decide (0 ≤ o.pos_size) = true) := by
  have habs : ∀ (z : ℤ) (d : ℕ), |div_to_float z d| = |(z : ℚ)| / 10 ^ d := by
    intro z d
    rw [div_to_float_eq, abs_div, abs_of_pos (by positivity : (0 : ℚ) < 10 ^ d)]
  refine ⟨?_, ?_, ?_⟩
  · rw [position]
    refine List.mem_map.mpr ⟨(m, o), hmem, ?_⟩
    simp only [if_neg hkey]
    rw [habs o.pos_size m.asset_decimals, habs o.native_pc_total 6,
      div_to_float_eq o.realized_pnl m.asset_decimals, div_to_float_eq o.funding_index 6]
  · intro h
    refine ⟨decide_eq_false_iff_not.mpr (not_le.mpr h), ?_⟩
    apply div_pos _ (by positivity)
    rw [abs_pos]
    exact Int.cast_ne_zero.mpr (ne_of_lt h)
  · intro h
    simp [h]

/-- C10 witness: the live short slot of `c10Control` reports absolute size
`3/10`, absolute value `2000000/10^6`, realized pnl `-5/10` with its sign,
and `isLong = false`. -/
theorem c10_witness :
    ("M", PositionInfo.mk (|((-3 : ℤ) : ℚ)| / 10 ^ 1)
        (|((-2000000 : ℤ) : ℚ)| / 10 ^ 6)
        (((-5 : ℤ) : ℚ) / 10 ^ 1)
        (((3000000 : ℤ) : ℚ) / 10 ^ 6)
        (decide ((0 : ℤ) ≤ -3)))
      ∈ position c10State c10Control :=
  (c10_live_position_view c10State c10Control ⟨⟨"M"⟩, 1⟩ ⟨7, -3, -2000000, -5, 3000000⟩
    (by decide) (by decide)).1

/-- `getD` through `enum.map`. -/
theorem getD_enum_map {α β : Type} (l : List α) (f : ℕ × α → β) (i : ℕ)
    (h : i < l.length) (d : β) (e : α) :
    (l.enum.map f).getD i d = f (i, l.getD i e) := by
  have h' : i < (l.enum.map f).length := by simpa using h
  rw [List.getD_eq_getElem _ _ h', List.getElem_map, List.getElem_enum,
    List.getD_eq_getElem _ _ h]

/-- C6: the balances handler multiplies the raw balance
`margin.collateral[i]` by `borrow_cache[i].supply_multiplier` when the raw
balance is `≥ 0` — including exactly `0` — and by
`borrow_cache[i].borrow_multiplier` when it is `< 0`. -/
theorem c6_multiplier_selection (st : ZoState) (cache : Cache) (margin : Margin)
    (i : ℕ) (hi : i < (zo_collaterals st).length) :
    (0 ≤ margin.collateral.getD i 0 →
      (collateral_balances st cache margin).getD i ("", 0)
        = (((zo_collaterals st).getD i ⟨⟨""⟩, 0⟩).oracle_symbol.str,
            small_to_big (margin.collateral.getD i 0 *
              (cache.borrow_cache.getD i ⟨0, 0⟩).supply_multiplier)
              ((zo_collaterals st).getD i ⟨⟨""⟩, 0⟩).decimals)) ∧
    (margin.collateral.getD i 0 < 0 →
      (collateral_balances st cache margin).getD i ("", 0)
        = (((zo_collaterals st).getD i ⟨⟨""⟩, 0⟩).oracle_symbol.str,
            small_to_big (margin.collateral.getD i 0 *
              (cache.borrow_cache.getD i ⟨0, 0⟩).borrow_multiplier)
              ((zo_collaterals st).getD i ⟨⟨""⟩, 0⟩).decimals)) := by
  constructor
  · intro h0
    rw [collateral_balances, getD_enum_map _ _ i hi ("", 0) ⟨⟨""⟩, 0⟩]
    simp only [if_pos h0]
  · intro hneg
    rw [collateral_balances, getD_enum_map _ _ i hi ("", 0) ⟨⟨""⟩, 0⟩]
    simp only [if_neg (not_le.mpr hneg)]

/-- C6 witness: the spec's own scenario — one collateral `"USDC"` with 6
decimals, raw balance `1000000`, supply multiplier `1` — yields
`("USDC", 1)`. -/
theorem c6_witness :
    (collateral_balances c6State c6Cache c6Margin).getD 0 ("", 0) = ("USDC", 1) := by
  have h := (c6_multiplier_selection c6State c6Cache c6Margin 0 (by decide)).1
    (by norm_num [c6Margin])
  have hz : zo_collaterals c6State = [⟨⟨"USDC"⟩, 6⟩] := rfl
  rw [h, hz]
  norm_num [small_to_big, c6Margin, c6Cache]

/-- C7: each cancel filter is forwarded to the `CancelPerpOrder` instruction
exactly as given — a present field with its (parsed) value, an absent field
as unconstrained — and a request with no filters at all produces an
instruction with all three fields unconstrained. -/
theorem c7_cancel_filters_passthrough (q : OrdersDeleteQuery) :
    (q.order_id = none →
      orders_delete_args q
        = .ok ⟨none, q.side.map (fun x => decide (x = Side.Bid)), q.client_id⟩) ∧
    (∀ s v, q.order_id = some s → parseU128 s = some v →
      orders_delete_args q
        = .ok ⟨some v, q.side.map (fun x => decide (x = Side.Bid)), q.client_id⟩) ∧
    (q.order_id = none → q.side = none → q.client_id = none →
      orders_delete_args q = .ok ⟨none, none, none⟩) := by
  refine ⟨?_, ?_, ?_⟩
  · intro h
    simp [orders_delete_args, h]
  · intro s v hs hv
    simp [orders_delete_args, hs, hv]
  · intro h1 h2 h3
    simp [orders_delete_args, h1, h2, h3]

/-- C7 witness: no filters pass through as all-unconstrained; present
filters pass through with their values. -/
theorem c7_witness :
    orders_delete_args ⟨none, none, none⟩ = .ok ⟨none, none, none⟩ ∧
      orders_delete_args ⟨some "12", some Side.Ask, some 3⟩
        = .ok ⟨some 12, some false, some 3⟩ := by
  constructor
  · exact (c7_cancel_filters_passthrough _).2.2 rfl rfl rfl
  · have h := (c7_cancel_filters_passthrough
      ⟨some "12", some Side.Ask, some 3⟩).2.1 "12" 12 rfl (by decide)
    simpa using h

/-- C8 (counterexample): `"X"` names no market at all, yet `oo` fails with
`OpenOrdersNotFound "X"` rather than with the market-not-found error. -/
theorem c8_counterexample :
    market_symbol_index c8State "X" = .error (.MarketSymbolNotFound "X") ∧
      oo c8State c8Control "X" = .error (.OpenOrdersNotFound "X") :=
  ⟨rfl, rfl⟩

/-- C8 (amended): `oo` itself returns `OpenOrdersNotFound s` exactly when no
active market named `s` has a nonzero stored key — covering both the
zero-key slot of an existing market and a symbol naming no market at all;
in the handlers the market is resolved first, so there a symbol naming no
market yields `MarketSymbolNotFound` before `oo` runs. -/
theorem c8_oo_not_found_behavior (st : ZoState) (c : Control) (s : String) :
    (oo st c s = .error (.OpenOrdersNotFound s) ↔
      ∀ p ∈ c.open_orders_agg.zip (zo_markets st),
        s = p.2.symbol.str → p.1.key = 0) ∧
    ((∀ m ∈ st.perp_markets, m.symbol.str ≠ s) →
      handler_market_then_oo st c s = .error (.MarketSymbolNotFound s)) := by
  constructor
  · have hmatch : ∀ (x : Option ℕ),
        ((match x with
          | some k => (Except.ok k : Except Error ℕ)
          | none => .error (.OpenOrdersNotFound s)) = .error (.OpenOrdersNotFound s))
          ↔ x = none := by
      intro x
      cases x <;> simp
    rw [oo, hmatch, List.findSome?_eq_none_iff]
    refine forall₂_congr fun p hp => ?_
    by_cases hs : s = p.2.symbol.str
    · by_cases hk : p.1.key = 0 <;> simp [hs, hk]
    · simp [hs]
  · intro h
    have hmsi : market_symbol_index st s = .error (.MarketSymbolNotFound s) := by
      rw [market_symbol_index,
        List.findIdx?_eq_none_iff.mpr (by simpa using h)]
    rw [handler_market_then_oo, market, hmsi]
    rfl

/-- C8 witness: the active market `"A"` with a zero-key slot yields
`OpenOrdersNotFound`, and resolving an unknown symbol through the handler
pipeline yields `MarketSymbolNotFound` before `oo` runs. -/
theorem c8_witness :
    oo c8State c8Control "A" = .error (.OpenOrdersNotFound "A") ∧
      handler_market_then_oo c8State c8Control "Z"
        = .error (.MarketSymbolNotFound "Z") :=
  ⟨(c8_oo_not_found_behavior c8State c8Control "A").1.mpr (by decide),
   (c8_oo_not_found_behavior c8State c8Control "Z").2 (by decide)⟩

end Zo
